import Mathlib

/-!
# Verification of the pycoal mineral-classification core and CLI

The repository ships only the CLI driver (`pycoal/cli/mineral.py`) and the
test suite (`pycoal/tests/mineral_test.py`); the core module
`pycoal/mineral.py` (class `MineralClassification` with `classifyImage`,
`filterClasses` and `toRGB`) is not part of the visible sources.  The core
is therefore modelled from the specification (spec.md §3, §4.1–§4.3),
faithful to its words; the CLI driver is embedded from its actual source.

Floating-point reflectance values are modelled as rationals.  The
spectral-angle similarity kernel (`arccos` of a normalised dot product,
spec.md §4.1) is a single real-valued scalar per (pixel, reference) pair;
all claims under scrutiny quantify over every image and library and depend
only on the selection, thresholding and catalogue logic, so the kernel is
passed as an explicit function argument `sim` and the theorems hold for
every such kernel, in particular for the pinned arccos-based one.
-/

namespace PyCoal

/-- A spectrum: ordered sequence of reflectance values aligned to a shared
wavelength axis (spec.md §3). -/
abbrev Spectrum := List ℚ

/-- Modelled from the spec: a Reference Library is an ordered sequence of
(class name, spectrum) pairs sharing one wavelength axis (spec.md §3);
the loader `spectral.io.envi.SpectralLibrary` is external. -/
structure SpectralLibrary where
  axis : List ℚ
  entries : List (String × Spectrum)
  deriving DecidableEq

/-- Modelled from the spec: an input raster cube exposing its wavelength
axis, per-pixel spectra, pass-through map-reference metadata and the
sensor-identifying name (spec.md §3, §6). -/
structure Image where
  axis : List ℚ
  pixels : List (List Spectrum)
  mapInfo : String
  name : String
  deriving DecidableEq

/-- Classification Config: optional similarity cutoff and optional
class-name subset (spec.md §3). -/
structure ClassificationConfig where
  threshold : Option ℚ
  classNames : Option (List String)
  deriving DecidableEq

/-- A classified raster: 2D array of class ids plus the metadata fields the
tests inspect (spec.md §3, §6). -/
@[ext]
structure ClassifiedRaster where
  pixels : List (List ℕ)
  description : String
  mapInfo : String
  fileType : String
  classes : ℕ
  classNames : List String
  deriving DecidableEq

/-- Error taxonomy of the classifier (spec.md §4.1, §7). -/
inductive ClassifyError where
  | invalidLibrary
  | bandMismatch
  | emptySubset
  deriving DecidableEq

/-- Modelled from the spec: `pycoal.version`, the tool's version string
(the module defining it is not among the visible sources). -/
def pycoalVersion : String := "0.5.0"

/-- Index of the maximum of a list of scores, ties broken by the lowest
index (spec.md §4.1: "ties broken by lowest catalog index"). -/
def argmaxIdx : List ℚ → ℕ
  | [] => 0
  | x :: xs =>
    if xs = [] then 0
    else
      let j := argmaxIdx xs
      if x < xs.getD j 0 then j + 1 else 0

/-- Modelled from the spec: the per-pixel decision of the Classifier
(spec.md §4.1).  A nodata (all-zero) pixel is assigned id 0 directly;
otherwise the catalogue entry of maximum similarity wins (lowest index on
ties) and, when a threshold is set, a winning similarity below it yields
id 0 instead.  `sim` is the spectral-angle similarity kernel. -/
def classifyPixel (sim : Spectrum → Spectrum → ℚ) (entries : List (String × Spectrum))
    (threshold : Option ℚ) (p : Spectrum) : ℕ :=
  if p.all (fun v => v = 0) then 0
  else
    let scores := entries.map (fun e => sim p e.2)
    let j := argmaxIdx scores
    match threshold with
    | none => j + 1
    | some t => if scores.getD j 0 < t then 0 else j + 1

/-- The catalogue entries eligible under the config: the library entries
whose name is in `config.classNames` when that subset is given, else all
entries, in library order (spec.md §4.1). -/
def eligibleEntries (lib : SpectralLibrary) (config : ClassificationConfig) :
    List (String × Spectrum) :=
  match config.classNames with
  | none => lib.entries
  | some s => lib.entries.filter (fun e => e.1 ∈ s)

/-- Modelled from the spec: `MineralClassification.classifyImage`
(spec.md §4.1).  Validates the library, the wavelength axes and the
subset, then classifies pixel-wise and attaches the Class Catalog
("No data" first) and the metadata fields as described. -/
def classifyImage (sim : Spectrum → Spectrum → ℚ) (image : Image)
    (lib : SpectralLibrary) (config : ClassificationConfig) :
    Except ClassifyError ClassifiedRaster :=
  if lib.entries = [] ∨ ¬ (∀ e ∈ lib.entries, e.2.length = lib.axis.length) then
    .error .invalidLibrary
  else if image.axis ≠ lib.axis then
    .error .bandMismatch
  else if eligibleEntries lib config = [] then
    .error .emptySubset
  else
    .ok
      { pixels := image.pixels.map (fun row =>
          row.map (classifyPixel sim (eligibleEntries lib config) config.threshold))
        description := "PyCOAL " ++ pycoalVersion ++ " mineral classified image."
        mapInfo := image.mapInfo
        fileType := "ENVI Classification"
        classes := (eligibleEntries lib config).length + 1
        classNames := "No data" :: (eligibleEntries lib config).map Prod.fst }

/-- All class ids occurring in a classified raster, row-major. -/
def rasterValues (r : ClassifiedRaster) : List ℕ :=
  r.pixels.flatten

/-- The class ids actually present in the raster, in ascending id order —
i.e. preserving their relative order from the original catalogue
(spec.md §4.2). -/
def presentIds (r : ClassifiedRaster) : List ℕ :=
  (List.range r.classNames.length).filter (fun i => i ∈ rasterValues r)

/-- Modelled from the spec: `MineralClassification.filterClasses`
(spec.md §4.2).  Computes the set of present class ids, rebuilds the
catalogue from only those classes in their original relative order,
rewrites every pixel through the old-to-new id remap, and updates the
class-count and class-names metadata; all other metadata unchanged. -/
def filterClasses (r : ClassifiedRaster) : ClassifiedRaster :=
  let present := presentIds r
  { pixels := r.pixels.map (fun row => row.map (fun v => present.indexOf v))
    description := r.description
    mapInfo := r.mapInfo
    fileType := r.fileType
    classes := present.length
    classNames := present.map (fun i => r.classNames.getD i "") }

/-- Supported sensor families of the RGB Composer (spec.md §4.3): the two
families exercised by the tests are AVIRIS-NG and AVIRIS-C. -/
inductive SensorFamily where
  | avirisNG
  | avirisC
  deriving DecidableEq

/-- Per-sensor hard-coded band-index table and 3-entry metadata values
(spec.md §4.3). -/
structure SensorTable where
  redBand : ℕ
  greenBand : ℕ
  blueBand : ℕ
  wavelength : List ℚ
  correctionFactors : List ℚ
  fwhm : List ℚ
  bbl : List ℚ
  smoothingFactors : List ℚ
  deriving DecidableEq

/-- Modelled from the spec: the disjoint, hard-coded per-family tables of
the RGB Composer (spec.md §4.3).  The concrete numeric values are not in
the visible sources; what matters to the claims is that each family's
metadata lists are fixed and 3-entry. -/
def sensorTable : SensorFamily → SensorTable
  | .avirisNG =>
    { redBand := 60, greenBand := 42, blueBand := 24
      wavelength := [673, 583, 493]
      correctionFactors := [1, 1, 1]
      fwhm := [6, 6, 6]
      bbl := [1, 1, 1]
      smoothingFactors := [1, 1, 1] }
  | .avirisC =>
    { redBand := 29, greenBand := 20, blueBand := 12
      wavelength := [667, 577, 499]
      correctionFactors := [2, 2, 2]
      fwhm := [10, 10, 10]
      bbl := [1, 1, 1]
      smoothingFactors := [3, 3, 3] }

/-- An RGB preview raster: per pixel the three selected band values, plus
the five derived 3-entry metadata lists (spec.md §3). -/
structure RGBRaster where
  pixels : List (List (List ℚ))
  wavelength : List ℚ
  correctionFactors : List ℚ
  fwhm : List ℚ
  bbl : List ℚ
  smoothingFactors : List ℚ
  deriving DecidableEq

/-- Error of the RGB Composer (spec.md §4.3, §7). -/
inductive RGBError where
  | unknownSensor
  deriving DecidableEq

/-- Modelled from the spec: sensor-family detection "from the image's
identifying metadata/naming convention" (spec.md §4.3).  The test fixtures
name AVIRIS-NG images `ang...` and AVIRIS-C images `f...rdn_c...`. -/
def detectSensor (image : Image) : Option SensorFamily :=
  if image.name.data.take 3 = ['a', 'n', 'g'] then some .avirisNG
  else if image.name.data.take 1 = ['f'] then some .avirisC
  else none

/-- Modelled from the spec: `MineralClassification.toRGB` (spec.md §4.3).
Detects the sensor family, selects the three source bands per the family's
table, copies their pixel values verbatim and writes the 3-entry metadata
lists drawn from the sensor table. -/
def toRGB (image : Image) : Except RGBError RGBRaster :=
  match detectSensor image with
  | none => .error .unknownSensor
  | some fam =>
    let t := sensorTable fam
    .ok
      { pixels := image.pixels.map (fun row =>
          row.map (fun s => [s.getD t.redBand 0, s.getD t.greenBand 0, s.getD t.blueBand 0]))
        wavelength := t.wavelength
        correctionFactors := t.correctionFactors
        fwhm := t.fwhm
        bbl := t.bbl
        smoothingFactors := t.smoothingFactors }

end PyCoal

namespace PyCoalCLI

/-!
## Embedding of the CLI driver `src/pycoal/cli/mineral.py`

This part is embedded from the actual source file, which is present in the
repository.  Python exceptions and the observable effects of `main()` are
made explicit.
-/

/-- Python exceptions that the CLI driver can raise or handle.
`unboundLocal` models `UnboundLocalError`, a subclass of `NameError`. -/
inductive PyExc where
  | unboundLocal (name : String)
  | nameError (name : String)
  | keyboardInterrupt
  | other (msg : String)
  deriving DecidableEq

/-- Whether an exception is a `NameError` (`UnboundLocalError` included,
as in Python's class hierarchy). -/
def PyExc.isNameError : PyExc → Bool
  | .unboundLocal _ => true
  | .nameError _ => true
  | _ => false

/-- Outcome of a CLI invocation: the function either returns an exit code
or lets an exception propagate out of `main()`. -/
inductive CLIOutcome where
  | returned (code : Int)
  | raised (e : PyExc)
  deriving DecidableEq

/-- Observable effects of a `main()` run: how many `MineralClassification`
instances were constructed and what was written to standard error. -/
structure MainEffects where
  classifiersConstructed : ℕ
  stderrLines : List String
  deriving DecidableEq

/-- `DEBUG` flag, `src/pycoal/cli/mineral.py` line 47. -/
def DEBUG : ℕ := 1

/-- `TESTRUN` flag, `src/pycoal/cli/mineral.py` line 48. -/
def TESTRUN : ℕ := 0

/-- Python's `repr` of an exception, as far as the driver prints it. -/
def excRepr : PyExc → String
  | .unboundLocal n => "UnboundLocalError(" ++ n ++ ")"
  | .nameError n => "NameError(" ++ n ++ ")"
  | .keyboardInterrupt => "KeyboardInterrupt()"
  | .other msg => msg

/-- The `except` clauses of `main()` (`src/pycoal/cli/mineral.py` lines
102–111): `KeyboardInterrupt` returns 0; any other exception is re-raised
when `DEBUG or TESTRUN` is truthy, and otherwise is written to standard
error followed by a `return 2`.  The flags are passed explicitly so that
the handler can be stated at the shipped values and at others. -/
def handleException (debug testrun : ℕ) (programName : String) (e : PyExc) :
    CLIOutcome × List String :=
  match e with
  | .keyboardInterrupt => (.returned 0, [])
  | e =>
    if debug ≠ 0 ∨ testrun ≠ 0 then (.raised e, [])
    else
      let indent := String.mk (List.replicate programName.length ' ')
      (.returned 2,
        [programName ++ ": " ++ excRepr e ++ "\n",
         indent ++ "  for help use --help"])

/-- Global names bound at module level of `src/pycoal/cli/mineral.py`
(imports and top-level assignments).  Neither `input_filename` nor
`library_filename`, read at line 87, is among them. -/
def moduleGlobals : List String :=
  ["sys", "os", "path", "getcwd", "inspect", "ArgumentParser",
   "RawDescriptionHelpFormatter", "logging", "pycoal", "mineral", "mining",
   "environment", "math", "numpy", "spectral", "time", "DEBUG", "TESTRUN",
   "PROFILE", "argparse", "main"]

/-- The `try` block of `main()` (lines 80–100): builds the argument parser
and then evaluates `parser.parse_args(['-i', input_filename, '-s',
library_filename])` (line 87).  `input_filename` is not a local of
`main()` and not a module global, so that read raises `NameError`; only a
successful parse would go on to construct a `MineralClassification`
instance (line 94). -/
def mainTryBlock : Except PyExc MainEffects :=
  if "input_filename" ∈ moduleGlobals then
    if "library_filename" ∈ moduleGlobals then
      .ok { classifiersConstructed := 1, stderrLines := [] }
    else .error (.nameError "library_filename")
  else .error (.nameError "input_filename")

/-- Lines 57–111 of `main()`: the remainder of the function once the
condition of line 56 has been evaluated.  The `try` block runs and its
exception, if any, is dispatched to the `except` clauses. -/
def mainFromLine57 (programName : String) : CLIOutcome × MainEffects :=
  match mainTryBlock with
  | .ok eff => (.returned 0, eff)
  | .error e =>
    let (outcome, stderrOut) := handleException DEBUG TESTRUN programName e
    (outcome, { classifiersConstructed := 0, stderrLines := stderrOut })

/-- Locals of `main()` bound before line 56 executes: none.  `argv` is
assigned at lines 57 and 59, which under CPython scoping makes it a local
variable of `main()` throughout the body, so the read in the condition
`if argv is None:` at line 56 consults this (empty) local environment. -/
def mainLocalsAtLine56 : List String := []

/-- Embedding of `main()` from `src/pycoal/cli/mineral.py` (lines 53–111).
Line 56 reads the local variable `argv` before any assignment to it, which
in Python raises `UnboundLocalError` (a `NameError`); this read happens
outside the `try` block, so nothing catches it. -/
def main (programName : String) : CLIOutcome × MainEffects :=
  if "argv" ∈ mainLocalsAtLine56 then
    mainFromLine57 programName
  else
    (.raised (.unboundLocal "argv"), { classifiersConstructed := 0, stderrLines := [] })

end PyCoalCLI

namespace PyCoal

/-!
## Concrete instances used to exercise the definitions

A sample similarity kernel, a two-entry library, a 2×2 image and a sample
classified raster (the latter realises the concrete scenario of
spec.md §8: ids {0,0,2,2,5} over catalogue ["No data","A","B","C","D","E"]).
-/

/-- A sample similarity kernel: exact spectral match scores 1, anything
else 0 (the maximal-similarity value of a zero spectral angle). -/
def wSim : Spectrum → Spectrum → ℚ := fun p r => if p = r then 1 else 0

/-- A two-entry sample library on a two-band axis. -/
def wLib : SpectralLibrary :=
  { axis := [1, 2], entries := [("Alunite", [1, 0]), ("Kaolinite", [0, 1])] }

/-- A 2×2 sample image on the same axis, containing a nodata pixel. -/
def wImage : Image :=
  { axis := [1, 2], pixels := [[[1, 0], [0, 1]], [[0, 0], [1, 1]]],
    mapInfo := "m", name := "ang_test" }

/-- The raster produced by classifying `wImage` against `wLib` with no
threshold and no subset. -/
def wOutN : ClassifiedRaster :=
  { pixels := [[1, 2], [0, 1]]
    description := "PyCOAL " ++ pycoalVersion ++ " mineral classified image."
    mapInfo := "m"
    fileType := "ENVI Classification"
    classes := 3
    classNames := ["No data", "Alunite", "Kaolinite"] }

/-- The raster produced with threshold 1 (only exact matches accepted). -/
def wOutT1 : ClassifiedRaster :=
  { wOutN with pixels := [[1, 2], [0, 0]] }

/-- The raster produced with threshold 2 (all winners rejected). -/
def wOutT2 : ClassifiedRaster :=
  { wOutN with pixels := [[0, 0], [0, 0]] }

/-- The raster produced with the class subset ["Kaolinite"]. -/
def wOutS : ClassifiedRaster :=
  { pixels := [[1, 1], [0, 1]]
    description := "PyCOAL " ++ pycoalVersion ++ " mineral classified image."
    mapInfo := "m"
    fileType := "ENVI Classification"
    classes := 2
    classNames := ["No data", "Kaolinite"] }

/-- The concrete classified raster of the spec's §8 scenario. -/
def wRaster : ClassifiedRaster :=
  { pixels := [[0, 0], [2, 2], [5, 0]]
    description := "d"
    mapInfo := "m"
    fileType := "ENVI Classification"
    classes := 6
    classNames := ["No data", "A", "B", "C", "D", "E"] }

/-- A sample AVIRIS-NG image. -/
def wImgNG1 : Image :=
  { axis := [1, 2], pixels := [[[1, 0], [0, 1]]], mapInfo := "m", name := "ang1" }

/-- A second AVIRIS-NG image with different pixel data. -/
def wImgNG2 : Image :=
  { axis := [1, 2], pixels := [[[3, 4]]], mapInfo := "m2", name := "ang2" }

/-- The RGB preview raster of `wImgNG1` (the selected AVIRIS-NG band
indices lie beyond the two sample bands, so band values default to 0). -/
def wRGB1 : RGBRaster :=
  { pixels := [[[0, 0, 0], [0, 0, 0]]]
    wavelength := [673, 583, 493]
    correctionFactors := [1, 1, 1]
    fwhm := [6, 6, 6]
    bbl := [1, 1, 1]
    smoothingFactors := [1, 1, 1] }

/-- The RGB preview raster of `wImgNG2`. -/
def wRGB2 : RGBRaster :=
  { pixels := [[[0, 0, 0]]]
    wavelength := [673, 583, 493]
    correctionFactors := [1, 1, 1]
    fwhm := [6, 6, 6]
    bbl := [1, 1, 1]
    smoothingFactors := [1, 1, 1] }

/-- Decidable equality of `Except` results, used to evaluate the model on
concrete inputs. -/
instance {ε α : Type} [DecidableEq ε] [DecidableEq α] : DecidableEq (Except ε α) := by
  intro a b
  cases a <;> cases b
  case ok.ok x y => exact decidable_of_iff (x = y) (by simp)
  case error.error x y => exact decidable_of_iff (x = y) (by simp)
  all_goals exact isFalse (by simp)

end PyCoal

namespace PyCoal

/-!
## Helper lemmas about the classifier
-/

/-- The argmax index of a nonempty score list is in range. -/
theorem argmaxIdx_lt_length (l : List ℚ) (h : l ≠ []) : argmaxIdx l < l.length := by
  induction l with
  | nil => exact absurd rfl h
  | cons x xs ih =>
    rw [argmaxIdx]
    by_cases hxs : xs = []
    · simp [hxs]
    · simp only [hxs, if_false]
      split
      · exact Nat.succ_lt_succ (ih hxs)
      · simp

/-- A classified pixel is either "No data" or a successor index in range. -/
theorem classifyPixel_eq_zero_or (sim : Spectrum → Spectrum → ℚ)
    (entries : List (String × Spectrum)) (th : Option ℚ) (p : Spectrum)
    (h : entries ≠ []) :
    classifyPixel sim entries th p = 0 ∨
    ∃ j, j < entries.length ∧ classifyPixel sim entries th p = j + 1 := by
  have hmap : entries.map (fun e => sim p e.2) ≠ [] := by
    simpa using h
  have hj := argmaxIdx_lt_length _ hmap
  rw [List.length_map] at hj
  unfold classifyPixel
  split
  · exact Or.inl rfl
  · cases th with
    | none => exact Or.inr ⟨_, hj, rfl⟩
    | some t =>
      dsimp only
      split
      · exact Or.inl rfl
      · exact Or.inr ⟨_, hj, rfl⟩

/-- Elimination for a successful classification: the eligible entries are
nonempty and the output raster is the one pixel-wise classification
produces. -/
theorem classifyImage_ok_elim {sim : Spectrum → Spectrum → ℚ} {image : Image}
    {lib : SpectralLibrary} {config : ClassificationConfig} {out : ClassifiedRaster}
    (h : classifyImage sim image lib config = .ok out) :
    eligibleEntries lib config ≠ [] ∧
    out = { pixels := image.pixels.map (fun row =>
              row.map (classifyPixel sim (eligibleEntries lib config) config.threshold))
            description := "PyCOAL " ++ pycoalVersion ++ " mineral classified image."
            mapInfo := image.mapInfo
            fileType := "ENVI Classification"
            classes := (eligibleEntries lib config).length + 1
            classNames := "No data" :: (eligibleEntries lib config).map Prod.fst } := by
  unfold classifyImage at h
  split at h
  · exact absurd h (by simp)
  · split at h
    · exact absurd h (by simp)
    · split at h
      · exact absurd h (by simp)
      · rename_i hne
        exact ⟨hne, (Except.ok.injEq _ _ ▸ h).symm⟩

/-- Mapping the same base list with pointwise-related functions yields
`Forall₂`-related lists. -/
theorem forall₂_map_map {α β γ : Type} {R : β → γ → Prop} {f : α → β} {g : α → γ}
    (h : ∀ a, R (f a) (g a)) : ∀ l : List α, List.Forall₂ R (l.map f) (l.map g)
  | [] => List.Forall₂.nil
  | a :: l => List.Forall₂.cons (h a) (forall₂_map_map h l)

/-- A list is `Forall₂`-related to its image under `f` whenever each
element is related to its own image. -/
theorem forall₂_map_self {α β : Type} {R : α → β → Prop} {f : α → β} :
    ∀ l : List α, (∀ a ∈ l, R a (f a)) → List.Forall₂ R l (l.map f)
  | [], _ => List.Forall₂.nil
  | a :: l, h =>
    List.Forall₂.cons (h a (by simp)) (forall₂_map_self l (fun b hb => h b (by simp [hb])))

/-!
## Claim theorems about the Classifier
-/

/-- C1: for every input image and reference library whose wavelength axes
match (i.e. whenever `classifyImage` succeeds), every pixel value in the
classified raster is a valid index into the paired Class Catalog
(`0 ≤ id < catalog length`), id 0 naming "No data", the reported class
count being the catalogue length. -/
theorem classifyImage_valid_ids (sim : Spectrum → Spectrum → ℚ) (image : Image)
    (lib : SpectralLibrary) (config : ClassificationConfig) (out : ClassifiedRaster)
    (h : classifyImage sim image lib config = .ok out) :
    out.classes = out.classNames.length ∧
    out.classNames.getD 0 "" = "No data" ∧
    ∀ v ∈ rasterValues out, v < out.classNames.length := by
  obtain ⟨hne, rfl⟩ := classifyImage_ok_elim h
  refine ⟨by simp, rfl, ?_⟩
  intro v hv
  rw [rasterValues] at hv
  dsimp only at hv
  rw [← List.map_flatten] at hv
  obtain ⟨p, _, rfl⟩ := List.mem_map.1 hv
  rcases classifyPixel_eq_zero_or sim _ config.threshold p hne with h0 | ⟨j, hj, hEq⟩
  · simp [h0]
  · simp only [hEq, List.length_cons, List.length_map]
    omega

/-- Witness for C1 at a concrete image, library and config. -/
theorem classifyImage_valid_ids_witness :
    wOutN.classes = wOutN.classNames.length ∧
    wOutN.classNames.getD 0 "" = "No data" ∧
    ∀ v ∈ rasterValues wOutN, v < wOutN.classNames.length :=
  classifyImage_valid_ids wSim wImage wLib ⟨none, none⟩ wOutN (by decide)

/-- C8: the description metadata of every successfully classified raster
is the fixed string "PyCOAL " ++ version ++ " mineral classified image.",
hence identical for all inputs classified by the same tool version. -/
theorem classifyImage_description (sim : Spectrum → Spectrum → ℚ) (image : Image)
    (lib : SpectralLibrary) (config : ClassificationConfig) (out : ClassifiedRaster)
    (h : classifyImage sim image lib config = .ok out) :
    out.description = "PyCOAL " ++ pycoalVersion ++ " mineral classified image." := by
  obtain ⟨-, rfl⟩ := classifyImage_ok_elim h
  rfl

/-- Witness for C8 at a concrete image, library and config. -/
theorem classifyImage_description_witness :
    wOutN.description = "PyCOAL " ++ pycoalVersion ++ " mineral classified image." :=
  classifyImage_description wSim wImage wLib ⟨none, none⟩ wOutN (by decide)

/-- Setting a threshold either keeps the pixel's winning class id or
replaces it by 0; it never selects a different winner. -/
theorem classifyPixel_some_eq_none_or_zero (sim : Spectrum → Spectrum → ℚ)
    (entries : List (String × Spectrum)) (t : ℚ) (p : Spectrum) :
    classifyPixel sim entries (some t) p = classifyPixel sim entries none p ∨
    classifyPixel sim entries (some t) p = 0 := by
  unfold classifyPixel
  split
  · exact Or.inl rfl
  · dsimp only
    split
    · exact Or.inr rfl
    · exact Or.inl rfl

/-- A pixel rejected at a low threshold stays rejected at a higher one. -/
theorem classifyPixel_zero_mono (sim : Spectrum → Spectrum → ℚ)
    (entries : List (String × Spectrum)) (p : Spectrum) {t1 t2 : ℚ}
    (h12 : t1 ≤ t2) (h0 : classifyPixel sim entries (some t1) p = 0) :
    classifyPixel sim entries (some t2) p = 0 := by
  unfold classifyPixel at h0 ⊢
  split at h0 <;> rename_i hz
  · rw [if_pos hz]
  · rw [if_neg hz]
    dsimp only at h0 ⊢
    split at h0 <;> rename_i hlt
    · rw [if_pos (lt_of_lt_of_le hlt h12)]
    · omega

/-- Counting zeros is monotone under a pointwise zero-preserving map. -/
theorem count_zero_map_le {α : Type} (f g : α → ℕ) (l : List α)
    (h : ∀ a, f a = 0 → g a = 0) :
    (l.map f).count 0 ≤ (l.map g).count 0 := by
  induction l with
  | nil => simp
  | cons a l ih =>
    simp only [List.map_cons, List.count_cons, beq_iff_eq]
    split_ifs with h1 h2
    · omega
    · exact absurd (h a h1) h2
    · omega
    · omega

/-- Pixel grids built by mapping two pointwise same-or-zero classifiers
over the same image are `Forall₂`-related cell by cell. -/
theorem forall₂_pixels {α : Type} (f g : α → ℕ) (P : List (List α))
    (h : ∀ p, f p = g p ∨ f p = 0) :
    List.Forall₂ (List.Forall₂ (fun a b => a = b ∨ a = 0))
      (P.map (fun row => row.map f)) (P.map (fun row => row.map g)) := by
  apply forall₂_map_map (R := List.Forall₂ (fun a b => a = b ∨ a = 0))
  intro row
  apply forall₂_map_map (R := fun a b => a = b ∨ a = 0)
  exact h

/-- C2: with the image, library and subset held fixed, classification with
a threshold gives each pixel either the very class id (hence the very
class name, the catalogues being equal) that classification without a
threshold gives, or class id 0 ("No data"); the threshold never changes
which catalogue entry wins. -/
theorem classifyImage_threshold_same_or_nodata (sim : Spectrum → Spectrum → ℚ)
    (image : Image) (lib : SpectralLibrary) (subset : Option (List String)) (t : ℚ)
    (outT outN : ClassifiedRaster)
    (hT : classifyImage sim image lib ⟨some t, subset⟩ = .ok outT)
    (hN : classifyImage sim image lib ⟨none, subset⟩ = .ok outN) :
    outT.classNames = outN.classNames ∧
    List.Forall₂ (List.Forall₂ (fun a b => a = b ∨ a = 0)) outT.pixels outN.pixels := by
  obtain ⟨-, rfl⟩ := classifyImage_ok_elim hT
  obtain ⟨-, rfl⟩ := classifyImage_ok_elim hN
  refine ⟨rfl, ?_⟩
  dsimp only
  exact forall₂_pixels _ _ image.pixels
    (fun p => classifyPixel_some_eq_none_or_zero sim _ t p)

/-- Witness for C2 at a concrete image, library and threshold. -/
theorem classifyImage_threshold_same_or_nodata_witness :
    wOutT1.classNames = wOutN.classNames ∧
    List.Forall₂ (List.Forall₂ (fun a b => a = b ∨ a = 0)) wOutT1.pixels wOutN.pixels :=
  classifyImage_threshold_same_or_nodata wSim wImage wLib none 1 wOutT1 wOutN
    (by decide) (by decide)

/-- C5: with the image, library and subset held fixed, raising the
threshold never decreases the count of "No data" (id 0) pixels. -/
theorem classifyImage_threshold_mono (sim : Spectrum → Spectrum → ℚ)
    (image : Image) (lib : SpectralLibrary) (subset : Option (List String))
    (t1 t2 : ℚ) (h12 : t1 ≤ t2) (out1 out2 : ClassifiedRaster)
    (h1 : classifyImage sim image lib ⟨some t1, subset⟩ = .ok out1)
    (h2 : classifyImage sim image lib ⟨some t2, subset⟩ = .ok out2) :
    (rasterValues out1).count 0 ≤ (rasterValues out2).count 0 := by
  obtain ⟨-, rfl⟩ := classifyImage_ok_elim h1
  obtain ⟨-, rfl⟩ := classifyImage_ok_elim h2
  simp only [rasterValues, ← List.map_flatten]
  exact count_zero_map_le _ _ _ (fun p => classifyPixel_zero_mono sim _ p h12)

/-- Witness for C5 at thresholds 1 ≤ 2 on a concrete image and library. -/
theorem classifyImage_threshold_mono_witness :
    (rasterValues wOutT1).count 0 ≤ (rasterValues wOutT2).count 0 :=
  classifyImage_threshold_mono wSim wImage wLib none 1 2 (by norm_num) wOutT1 wOutT2
    (by decide) (by decide)

/-- C4: when a class-name subset is given, every pixel whose class name is
not "No data" has a class name belonging to the subset. -/
theorem classifyImage_subset_names (sim : Spectrum → Spectrum → ℚ) (image : Image)
    (lib : SpectralLibrary) (th : Option ℚ) (S : List String) (out : ClassifiedRaster)
    (h : classifyImage sim image lib ⟨th, some S⟩ = .ok out) :
    ∀ v ∈ rasterValues out, out.classNames.getD v "" ≠ "No data" →
      out.classNames.getD v "" ∈ S := by
  obtain ⟨hne, rfl⟩ := classifyImage_ok_elim h
  intro v hv hnd
  rw [rasterValues] at hv
  dsimp only at hv hnd ⊢
  rw [← List.map_flatten] at hv
  obtain ⟨p, -, rfl⟩ := List.mem_map.1 hv
  rcases classifyPixel_eq_zero_or sim _ _ p hne with h0 | ⟨j, hj, hEq⟩
  · rw [h0] at hnd
    exact absurd rfl hnd
  · rw [hEq] at hnd ⊢
    rw [List.getD_cons_succ] at hnd ⊢
    have hjm : j < ((eligibleEntries lib ⟨th, some S⟩).map Prod.fst).length := by
      simpa using hj
    rw [List.getD_eq_getElem _ _ hjm] at hnd ⊢
    rw [List.getElem_map] at hnd ⊢
    have hmem : (eligibleEntries lib ⟨th, some S⟩)[j] ∈ eligibleEntries lib ⟨th, some S⟩ :=
      List.getElem_mem _
    have : (eligibleEntries lib ⟨th, some S⟩)[j] ∈
        lib.entries.filter (fun e => e.1 ∈ S) := hmem
    have := List.mem_filter.1 this
    exact of_decide_eq_true this.2

/-- Witness for C4 at the concrete subset ["Kaolinite"] and pixel id 1. -/
theorem classifyImage_subset_names_witness :
    wOutS.classNames.getD 1 "" ∈ ["Kaolinite"] :=
  classifyImage_subset_names wSim wImage wLib none ["Kaolinite"] wOutS (by decide)
    1 (by decide) (by decide)

/-!
## Helper lemmas about the Class Compactor
-/

/-- The present-id list carries no duplicates. -/
theorem presentIds_nodup (r : ClassifiedRaster) : (presentIds r).Nodup :=
  (List.nodup_range _).filter _

/-- Membership in the present-id list. -/
theorem mem_presentIds {r : ClassifiedRaster} {i : ℕ} :
    i ∈ presentIds r ↔ i < r.classNames.length ∧ i ∈ rasterValues r := by
  simp [presentIds, List.mem_filter, List.mem_range]

/-- With only valid ids in the raster, the present-id count equals the
number of distinct pixel values. -/
theorem presentIds_length (r : ClassifiedRaster)
    (hvalid : ∀ v ∈ rasterValues r, v < r.classNames.length) :
    (presentIds r).length = (rasterValues r).dedup.length := by
  have h1 : (presentIds r).toFinset = (rasterValues r).dedup.toFinset := by
    ext a
    simp only [List.mem_toFinset, List.mem_dedup, mem_presentIds]
    exact ⟨fun h => h.2, fun h => ⟨hvalid a h, h⟩⟩
  rw [← List.toFinset_card_of_nodup (presentIds_nodup r),
    ← List.toFinset_card_of_nodup (List.nodup_dedup _), h1]

/-- Looking a pixel's remapped id up in the rebuilt catalogue gives the
pixel's original class name. -/
theorem remap_name_eq (r : ClassifiedRaster) (v : ℕ)
    (hv : v ∈ rasterValues r) (hvn : v < r.classNames.length) :
    ((presentIds r).map (fun i => r.classNames.getD i "")).getD
      ((presentIds r).indexOf v) "" = r.classNames.getD v "" := by
  have hvp : v ∈ presentIds r := mem_presentIds.2 ⟨hvn, hv⟩
  have hk : (presentIds r).indexOf v < (presentIds r).length :=
    List.indexOf_lt_length.2 hvp
  have hk2 : (presentIds r).indexOf v <
      ((presentIds r).map (fun i => r.classNames.getD i "")).length := by
    simpa using hk
  rw [List.getD_eq_getElem _ _ hk2, List.getElem_map, List.getElem_indexOf hk]

/-- The values of the compacted raster are the remapped original values. -/
theorem rasterValues_filterClasses (r : ClassifiedRaster) :
    rasterValues (filterClasses r) =
      (rasterValues r).map (fun v => (presentIds r).indexOf v) := by
  simp only [filterClasses, rasterValues, ← List.map_flatten]

/-- C3: after `filterClasses`, the reported class count equals the number
of distinct class-id values of the original raster, and pixel-wise the
class name looked up through the new catalogue equals the name looked up
through the original catalogue (ids may change, names do not). -/
theorem filterClasses_count_and_names (r : ClassifiedRaster)
    (hvalid : ∀ v ∈ rasterValues r, v < r.classNames.length) :
    (filterClasses r).classes = (rasterValues r).dedup.length ∧
    List.Forall₂ (List.Forall₂ (fun vOld vNew =>
        (filterClasses r).classNames.getD vNew "" = r.classNames.getD vOld ""))
      r.pixels (filterClasses r).pixels := by
  constructor
  · exact presentIds_length r hvalid
  · show List.Forall₂ _ r.pixels
      (r.pixels.map (fun row => row.map (fun v => (presentIds r).indexOf v)))
    apply forall₂_map_self
    intro row hrow
    apply forall₂_map_self
    intro v hv
    have hvr : v ∈ rasterValues r := List.mem_flatten_of_mem hrow hv
    exact remap_name_eq r v hvr (hvalid v hvr)

/-- Witness for C3 at the spec's concrete raster {0,0,2,2,5}. -/
theorem filterClasses_count_and_names_witness :
    (filterClasses wRaster).classes = (rasterValues wRaster).dedup.length ∧
    List.Forall₂ (List.Forall₂ (fun vOld vNew =>
        (filterClasses wRaster).classNames.getD vNew "" = wRaster.classNames.getD vOld ""))
      wRaster.pixels (filterClasses wRaster).pixels :=
  filterClasses_count_and_names wRaster (by decide)

/-- Reading every position of a list through `getD` over its index range
reproduces the list. -/
theorem map_getD_range {α : Type} (l : List α) (d : α) :
    (List.range l.length).map (fun i => l.getD i d) = l := by
  apply List.ext_getElem
  · simp
  · intro i h1 h2
    rw [List.getElem_map, List.getElem_range, List.getD_eq_getElem _ _ h2]

/-- `indexOf` over an initial segment of the naturals is the identity. -/
theorem indexOf_range {m j : ℕ} (h : j < m) : (List.range m).indexOf j = j := by
  have h2 := List.indexOf_getElem (List.nodup_range m) j (by simpa using h)
  rwa [List.getElem_range] at h2

/-- Mapping a function that fixes every occurring value over a pixel grid
leaves the grid unchanged. -/
theorem map_map_id_of_flatten {α : Type} (P : List (List α)) (g : α → α)
    (h : ∀ v ∈ P.flatten, g v = v) : P.map (fun row => row.map g) = P := by
  have hrow : ∀ row ∈ P, row.map g = row := by
    intro row hr
    calc row.map g = row.map id :=
          List.map_congr_left (fun v hv => h v (List.mem_flatten_of_mem hr hv))
      _ = row := List.map_id row
  calc P.map (fun row => row.map g) = P.map id := List.map_congr_left hrow
    _ = P := List.map_id P

/-- After one compaction every id below the new class count occurs, so a
second compaction finds exactly the ids `0, …, classes−1` present. -/
theorem presentIds_filterClasses (r : ClassifiedRaster) :
    presentIds (filterClasses r) = List.range (presentIds r).length := by
  have hlen : (filterClasses r).classNames.length = (presentIds r).length := by
    simp [filterClasses]
  unfold presentIds
  rw [hlen]
  apply List.filter_eq_self.2
  intro j hj
  rw [List.mem_range] at hj
  apply decide_eq_true
  rw [rasterValues_filterClasses]
  refine List.mem_map.2 ⟨(presentIds r).get ⟨j, hj⟩, ?_, ?_⟩
  · have hmem : (presentIds r).get ⟨j, hj⟩ ∈ presentIds r := List.get_mem _ _ hj
    exact (mem_presentIds.1 hmem).2
  · show (presentIds r).indexOf ((presentIds r)[j]) = j
    exact List.indexOf_getElem (presentIds_nodup r) j hj

/-- C6: `filterClasses` is idempotent — compacting an already compacted
raster changes neither the pixels nor any metadata. -/
theorem filterClasses_idem (r : ClassifiedRaster)
    (hvalid : ∀ v ∈ rasterValues r, v < r.classNames.length) :
    filterClasses (filterClasses r) = filterClasses r := by
  have hpres := presentIds_filterClasses r
  have hbound : ∀ w ∈ rasterValues (filterClasses r), w < (presentIds r).length := by
    intro w hw
    rw [rasterValues_filterClasses] at hw
    obtain ⟨v, hv, rfl⟩ := List.mem_map.1 hw
    exact List.indexOf_lt_length.2 (mem_presentIds.2 ⟨hvalid v hv, hv⟩)
  apply ClassifiedRaster.ext
  · show ((filterClasses r).pixels.map (fun row =>
      row.map (fun v => (presentIds (filterClasses r)).indexOf v))) = (filterClasses r).pixels
    rw [hpres]
    apply map_map_id_of_flatten
    intro v hv
    exact indexOf_range (hbound v hv)
  · rfl
  · rfl
  · rfl
  · show (presentIds (filterClasses r)).length = (presentIds r).length
    rw [hpres, List.length_range]
  · show (presentIds (filterClasses r)).map
      (fun i => (filterClasses r).classNames.getD i "") = (filterClasses r).classNames
    rw [hpres]
    have hlen : (presentIds r).length = (filterClasses r).classNames.length := by
      simp [filterClasses]
    rw [hlen]
    exact map_getD_range _ ""

/-- Witness for C6 at the spec's concrete raster {0,0,2,2,5}. -/
theorem filterClasses_idem_witness :
    filterClasses (filterClasses wRaster) = filterClasses wRaster :=
  filterClasses_idem wRaster (by decide)

/-!
## Claim theorems about the RGB Composer
-/

/-- Every sensor family's metadata lists have exactly 3 entries. -/
theorem sensorTable_lengths (fam : SensorFamily) :
    (sensorTable fam).wavelength.length = 3 ∧
    (sensorTable fam).correctionFactors.length = 3 ∧
    (sensorTable fam).fwhm.length = 3 ∧
    (sensorTable fam).bbl.length = 3 ∧
    (sensorTable fam).smoothingFactors.length = 3 := by
  cases fam <;> exact ⟨rfl, rfl, rfl, rfl, rfl⟩

/-- Elimination for a successful RGB synthesis: a sensor family was
detected and the output is fully determined by the image and that
family's table. -/
theorem toRGB_ok_elim {image : Image} {r : RGBRaster} (h : toRGB image = .ok r) :
    ∃ fam, detectSensor image = some fam ∧
      r = { pixels := image.pixels.map (fun row => row.map (fun s =>
              [s.getD (sensorTable fam).redBand 0, s.getD (sensorTable fam).greenBand 0,
               s.getD (sensorTable fam).blueBand 0]))
            wavelength := (sensorTable fam).wavelength
            correctionFactors := (sensorTable fam).correctionFactors
            fwhm := (sensorTable fam).fwhm
            bbl := (sensorTable fam).bbl
            smoothingFactors := (sensorTable fam).smoothingFactors } := by
  unfold toRGB at h
  cases hd : detectSensor image with
  | none =>
    rw [hd] at h
    exact absurd h (by simp)
  | some fam =>
    rw [hd] at h
    dsimp only at h
    exact ⟨fam, rfl, (Except.ok.inj h).symm⟩

/-- C7: `toRGB` is deterministic — identical inputs give identical outputs
— and sensor-aware: the five metadata lists all have 3 entries, agree
between any two images of the same detected family, and are drawn verbatim
from that family's fixed table. -/
theorem toRGB_deterministic (img1 img2 : Image) (r1 r2 : RGBRaster)
    (hfam : detectSensor img1 = detectSensor img2)
    (h1 : toRGB img1 = .ok r1) (h2 : toRGB img2 = .ok r2) :
    (img1 = img2 → r1 = r2) ∧
    (r1.wavelength.length = 3 ∧ r1.correctionFactors.length = 3 ∧
     r1.fwhm.length = 3 ∧ r1.bbl.length = 3 ∧ r1.smoothingFactors.length = 3) ∧
    (r1.wavelength = r2.wavelength ∧ r1.correctionFactors = r2.correctionFactors ∧
     r1.fwhm = r2.fwhm ∧ r1.bbl = r2.bbl ∧ r1.smoothingFactors = r2.smoothingFactors) ∧
    ∃ fam, detectSensor img1 = some fam ∧
      r1.wavelength = (sensorTable fam).wavelength ∧
      r1.correctionFactors = (sensorTable fam).correctionFactors ∧
      r1.fwhm = (sensorTable fam).fwhm ∧
      r1.bbl = (sensorTable fam).bbl ∧
      r1.smoothingFactors = (sensorTable fam).smoothingFactors := by
  obtain ⟨f1, hd1, rfl⟩ := toRGB_ok_elim h1
  obtain ⟨f2, hd2, rfl⟩ := toRGB_ok_elim h2
  have hff : f1 = f2 := by
    rw [hd1, hd2] at hfam
    exact Option.some_injective _ hfam
  subst hff
  refine ⟨?_, sensorTable_lengths f1, ⟨rfl, rfl, rfl, rfl, rfl⟩,
    f1, hd1, rfl, rfl, rfl, rfl, rfl⟩
  intro h12
  subst h12
  rfl

/-- Witness for C7 at two concrete AVIRIS-NG images. -/
theorem toRGB_deterministic_witness :
    (wImgNG1 = wImgNG2 → wRGB1 = wRGB2) ∧
    (wRGB1.wavelength.length = 3 ∧ wRGB1.correctionFactors.length = 3 ∧
     wRGB1.fwhm.length = 3 ∧ wRGB1.bbl.length = 3 ∧ wRGB1.smoothingFactors.length = 3) ∧
    (wRGB1.wavelength = wRGB2.wavelength ∧
     wRGB1.correctionFactors = wRGB2.correctionFactors ∧
     wRGB1.fwhm = wRGB2.fwhm ∧ wRGB1.bbl = wRGB2.bbl ∧
     wRGB1.smoothingFactors = wRGB2.smoothingFactors) ∧
    ∃ fam, detectSensor wImgNG1 = some fam ∧
      wRGB1.wavelength = (sensorTable fam).wavelength ∧
      wRGB1.correctionFactors = (sensorTable fam).correctionFactors ∧
      wRGB1.fwhm = (sensorTable fam).fwhm ∧
      wRGB1.bbl = (sensorTable fam).bbl ∧
      wRGB1.smoothingFactors = (sensorTable fam).smoothingFactors :=
  toRGB_deterministic wImgNG1 wImgNG2 wRGB1 wRGB2 rfl (by decide) (by decide)

end PyCoal

namespace PyCoalCLI

/-!
## Claim theorems about the CLI driver
-/

/-- C9 counterexample: with the shipped flags (`DEBUG = 1`), a
non-KeyboardInterrupt exception reaching the except clauses of `main()` is
re-raised — the CLI propagates the exception instead of writing it to
standard error and returning a nonzero exit code. -/
theorem cli_handler_counterexample :
    (handleException DEBUG TESTRUN "mineral.py" (.other "ValueError()")).1 =
      .raised (.other "ValueError()") ∧
    ∀ code : Int,
      (handleException DEBUG TESTRUN "mineral.py" (.other "ValueError()")).1 ≠
        .returned code := by
  refine ⟨rfl, ?_⟩
  intro code h
  rw [show (handleException DEBUG TESTRUN "mineral.py" (.other "ValueError()")).1 =
    .raised (.other "ValueError()") from rfl] at h
  exact CLIOutcome.noConfusion h

/-- C9 amended: when an exception other than KeyboardInterrupt reaches the
except clauses, the CLI re-raises it whenever `DEBUG or TESTRUN` is truthy
— which is the shipped configuration, `DEBUG = 1` — and only with both
flags zero does it write the failure to standard error (two lines, program
name and help hint) and return the nonzero exit code 2. -/
theorem cli_handler_amended (prog : String) (e : PyExc)
    (hne : e ≠ .keyboardInterrupt) :
    handleException DEBUG TESTRUN prog e = (.raised e, []) ∧
    handleException 0 0 prog e =
      (.returned 2,
       [prog ++ ": " ++ excRepr e ++ "\n",
        String.mk (List.replicate prog.length ' ') ++ "  for help use --help"]) := by
  cases e with
  | keyboardInterrupt => exact absurd rfl hne
  | unboundLocal n =>
    exact ⟨by simp [handleException, DEBUG, TESTRUN], by simp [handleException]⟩
  | nameError n =>
    exact ⟨by simp [handleException, DEBUG, TESTRUN], by simp [handleException]⟩
  | other msg =>
    exact ⟨by simp [handleException, DEBUG, TESTRUN], by simp [handleException]⟩

/-- Witness for the amended C9 at a concrete program name and exception. -/
theorem cli_handler_amended_witness :
    (PyExc.other "ValueError()" ≠ PyExc.keyboardInterrupt) ∧
    (handleException DEBUG TESTRUN "mineral.py" (.other "ValueError()") =
       (.raised (.other "ValueError()"), []) ∧
     handleException 0 0 "mineral.py" (.other "ValueError()") =
       (.returned 2,
        ["mineral.py" ++ ": " ++ excRepr (.other "ValueError()") ++ "\n",
         String.mk (List.replicate "mineral.py".length ' ') ++ "  for help use --help"])) :=
  ⟨by decide, cli_handler_amended "mineral.py" (.other "ValueError()") (by decide)⟩

/-- C10: every invocation of `main()` raises `UnboundLocalError` (a
`NameError`) on `argv` before constructing any `MineralClassification`
instance or producing any output: the condition of its first statement
reads the local `argv` before any assignment to it. -/
theorem main_unbound_argv (prog : String) :
    (main prog).1 = .raised (.unboundLocal "argv") ∧
    (PyExc.unboundLocal "argv").isNameError = true ∧
    (main prog).2.classifiersConstructed = 0 ∧
    (main prog).2.stderrLines = [] :=
  ⟨rfl, rfl, rfl, rfl⟩

end PyCoalCLI
